import Mathlib

/-!
Verification of the doctl serverless-extras subsystem
(`commands/serverless-extras.go`): project scaffolding (`init`),
deploy/watch/get-metadata drivers, include/exclude normalization,
transcript rewriting, and language/runtime resolution.

The Go source is shallowly embedded: pure helpers become Lean functions;
filesystem and remote interactions are made explicit, with filesystem
writes recorded as an ordered effect list and remote/backend results
passed in as parameters.  `filepath.Join` is modelled for clean relative
path components (no `.`/`..` cleaning is exercised by the fixed components
these commands pass).
-/

namespace DoctlServerless

/-! ## String helpers: Go `strings.Contains` and `strings.Replace(_, _, _, 1)` -/

/-- Whether `pat` occurs as a contiguous sublist of the second list
(Go `strings.Contains` over rune lists). -/
def subListOccurs (pat : List Char) : List Char → Bool
  | [] => pat.isEmpty
  | c :: cs => pat.isPrefixOf (c :: cs) || subListOccurs pat cs

/-- Replace the first (leftmost) occurrence of `pat` by `rep`
(Go `strings.Replace(s, pat, rep, 1)` over rune lists, for non-empty `pat`). -/
def replaceFirstList (pat rep : List Char) : List Char → List Char
  | [] => []
  | c :: cs =>
    if pat.isPrefixOf (c :: cs) then rep ++ (c :: cs).drop pat.length
    else c :: replaceFirstList pat rep cs

/-- Go `strings.Contains s pat`. -/
def strContains (s pat : String) : Bool := subListOccurs pat.data s.data

/-- Go `strings.Replace(s, pat, rep, 1)`. -/
def strReplaceFirst (s pat rep : String) : String :=
  ⟨replaceFirstList pat.data rep.data s.data⟩

/-- Go `filepath.Join(a, b)` for clean relative components. -/
def joinPath (a b : String) : String := a ++ "/" ++ b

/-- Split a rune list at every occurrence of the separator character
(Go `strings.Split` for a one-character separator, over rune lists). -/
def splitCharList (sep : Char) : List Char → List (List Char)
  | [] => [[]]
  | c :: cs =>
    let rest := splitCharList sep cs
    if c = sep then [] :: rest
    else
      match rest with
      | [] => [[c]]
      | r :: rs => (c :: r) :: rs

/-- Go `strings.Split(s, sep)` for a one-character separator. -/
def splitStr (s : String) (sep : Char) : List String :=
  (splitCharList sep s.data).map String.mk

/-- Interleave the separator character between the rune lists
(Go `strings.Join` for a one-character separator, over rune lists). -/
def joinCharList (sep : Char) : List (List Char) → List Char
  | [] => []
  | [x] => x
  | x :: xs => x ++ sep :: joinCharList sep xs

/-- Go `strings.Join(xs, sep)` for a one-character separator. -/
def joinStr (xs : List String) (sep : Char) : String :=
  ⟨joinCharList sep (xs.map String.data)⟩

/-- Go `strings.ToLower` (the tokens these commands lowercase are ASCII). -/
def strToLower (s : String) : String := ⟨s.data.map Char.toLower⟩

/-! ## Option state and the include/exclude normalizer -/

/-- The values of the `--include` and `--exclude` string flags as held by the
command configuration (`c.Doit`); the empty string is an unset flag, matching
the declared flag default `""`. -/
structure OptState where
  includeOpt : String
  excludeOpt : String
deriving DecidableEq, Repr

/-- The reserved folder name that has special meaning to the backend
(`keywordWeb` in the source). -/
def keywordWeb : String := "web"

/-- `qualifyWebWithSlash`: split on commas, change every token equal to
`web` into `web/`, and rejoin. -/
def qualifyWebWithSlash (original : String) : String :=
  let tokens := splitStr original ','
  let tokens := tokens.map fun token => if token = "web" then "web/" else token
  joinStr tokens ','

/-- `adjustIncludeAndExclude`: rewrite the include flag (when non-empty) with
`qualifyWebWithSlash`; rewrite the exclude flag likewise and append `,web`
when non-empty, otherwise set it to `web`. -/
def adjustIncludeAndExclude (s : OptState) : OptState :=
  let s1 := if s.includeOpt ≠ "" then
      { s with includeOpt := qualifyWebWithSlash s.includeOpt }
    else s
  if s1.excludeOpt ≠ "" then
    { s1 with excludeOpt := qualifyWebWithSlash s1.excludeOpt ++ "," ++ keywordWeb }
  else
    { s1 with excludeOpt := keywordWeb }

/-! ## Deploy transcript rewriting -/

/-- The fixed branded replacement line used by the deploy driver. -/
def deployedFunctionsBanner : String :=
  "Deployed functions (\x27doctl sbx fn get <funcName> --url\x27 for URL):"

/-- The per-line rewrite applied to each captured line of the deploy
transcript (the loop body in `RunServerlessExtraDeploy`): a line containing
`Deploying project` has its first occurrence replaced by `Deployed`;
otherwise a line containing `Deployed actions` is replaced wholesale by the
branded banner; otherwise the line is unchanged. -/
def deployLineRewrite (value : String) : String :=
  if strContains value "Deploying project" then
    strReplaceFirst value "Deploying project" "Deployed"
  else if strContains value "Deployed actions" then
    deployedFunctionsBanner
  else value

/-! ## Project spec data model (`do.ServerlessSpec` and friends) -/

/-- `do.ServerlessFunction`: a single deployable unit. -/
structure ServerlessFunction where
  Name : String
  Runtime : String
  Web : Bool
  WebSecure : Bool
deriving DecidableEq, Repr

/-- `do.ServerlessPackage`: a named grouping of functions. -/
structure ServerlessPackage where
  Name : String
  Functions : List ServerlessFunction := []
deriving DecidableEq, Repr

/-- `do.ServerlessSpec`: the root project descriptor (`project.yml`). -/
structure ServerlessSpec where
  Packages : List ServerlessPackage := []
deriving DecidableEq, Repr

/-- `configTemplate`: a minimal in-memory project configuration holding one
package named `sample`. -/
def configTemplate : ServerlessSpec :=
  { Packages := [{ Name := "sample" }] }

/-! ## Filesystem effects

Scaffolding routes all disk changes through `writeAFile`, `doMkdir` and
`os.RemoveAll`; we record those calls as an ordered effect list. -/

/-- One recorded filesystem mutation performed by the scaffolder. -/
inductive FsEffect
  | removeAll (path : String)
  | mkdirAll (path : String)
  | mkdir (path : String)
  | write (path : String) (contents : String)
deriving DecidableEq, Repr

/-! ## prepareProjectArea -/

/-- The result of `os.Stat(project)` as observed by `prepareProjectArea`:
the path does not exist, `Stat` failed with some other error, or the path
exists. -/
inductive StatResult
  | notExist
  | statError (e : String)
  | found
deriving DecidableEq, Repr

/-- The outcome of `prepareProjectArea`: proceed with no disk change,
proceed after `os.RemoveAll(project)`, or fail (with no disk change). -/
inductive PrepareOutcome
  | proceed
  | removedThenProceed
  | failed (msg : String)
deriving DecidableEq, Repr

/-- The formatted Go error text: the path, then `already exists; use`,
then a quoted `--overwrite`, then `to replace`. -/
def alreadyExistsMsg (project : String) : String :=
  project ++ " already exists; use \x27--overwrite\x27 to replace"

/-- `prepareProjectArea`: if the project path does not exist, proceed; if
`Stat` failed otherwise, propagate that error; if the path exists and
overwrite is false, fail with the "already exists" message; if overwrite is
true, remove the existing directory recursively and proceed. -/
def prepareProjectArea (project : String) (overwrite : Bool) (stat : StatResult) :
    PrepareOutcome :=
  match stat with
  | .notExist => .proceed
  | .statError e => .failed e
  | .found =>
    if !overwrite then .failed (alreadyExistsMsg project)
    else .removedThenProceed

/-- The disk effects performed by a `prepareProjectArea` outcome: only the
overwrite path touches the disk (`os.RemoveAll`). -/
def prepareEffects (project : String) : PrepareOutcome → List FsEffect
  | .removedThenProceed => [.removeAll project]
  | _ => []

/-! ## Language resolution and runtime validation -/

/-- The remote host as seen by `validateRuntime`: the serverless status
check, the credential read (yielding the API host), and the host-info fetch
(yielding the supported runtime set, keyed by API host). -/
structure RemoteHost where
  status : Except String Unit
  creds : Except String String
  hostInfo : String → Except String (List String)

/-- `validateRuntime`: `nodejs` is accepted without consulting the remote
host; any failure contacting the host is permissive (true); otherwise the
runtime must appear in the runtime set of the host. -/
def validateRuntime (remote : RemoteHost) (runtime : String) : Bool :=
  if runtime = "nodejs" then true
  else
    match remote.status with
    | .error _ => true
    | .ok _ =>
      match remote.creds with
      | .error _ => true
      | .ok apiHost =>
        match remote.hostInfo apiHost with
        | .error _ => true
        | .ok runtimes => runtimes.contains runtime

/-- Modelled from the spec: the static `languageKeywords` table (not under
`src/`) mapping each canonical runtime name to its language-keyword aliases,
"including aliases such as `ts`/`typescript`, `js`/`javascript`, `py`,
`golang`". -/
def languageKeywords : List (String × List String) :=
  [("go", ["go", "golang"]),
   ("nodejs", ["javascript", "js", "typescript", "ts"]),
   ("php", ["php"]),
   ("python", ["python", "py"])]

/-- Modelled from the spec: the static `samples` table (not under `src/`)
from language keyword to sample source text; no claim depends on the exact sample text, so placeholder bodies are used. -/
def samples : List (String × String) :=
  [("go", "<go sample source>"),
   ("golang", "<go sample source>"),
   ("javascript", "<javascript sample source>"),
   ("js", "<javascript sample source>"),
   ("typescript", "<typescript sample source>"),
   ("ts", "<typescript sample source>"),
   ("php", "<php sample source>"),
   ("python", "<python sample source>"),
   ("py", "<python sample source>")]

/-- Go map indexing `samples[language]` (zero value `""` when absent). -/
def samplesLookup (language : String) : String :=
  ((samples.find? fun p => p.1 = language).map Prod.snd).getD ""

/-- `isValidLanguage`: scan the `languageKeywords` table; when a keyword
matches, run `validateRuntime` on that runtime; when none matches, the
language is invalid.  (Each keyword occurs under exactly one runtime, so
the Go map-iteration order is immaterial.) -/
def isValidLanguage (remote : RemoteHost) (language : String) : Bool :=
  match languageKeywords.find? (fun p => p.2.contains language) with
  | some p => validateRuntime remote p.1
  | none => false

/-- The error text `fmt.Errorf("%s is not a supported language", language)`. -/
def unsupportedLanguageMsg (language : String) : String :=
  language ++ " is not a supported language"

/-- `languageToKindAndSample`: lowercase the token, validate it, then map it
to `(runtime ++ ":default", sample text, is-typescript)`. -/
def languageToKindAndSample (remote : RemoteHost) (language : String) :
    Except String (String × String × Bool) :=
  let language := strToLower language
  if !(isValidLanguage remote language) then
    .error (unsupportedLanguageMsg language)
  else
    let rt : String × Bool :=
      if language = "ts" ∨ language = "typescript" then ("nodejs", true)
      else if language = "js" ∨ language = "javascript" then ("nodejs", false)
      else if language = "py" then ("python", false)
      else if language = "golang" then ("go", false)
      else (language, false)
    .ok (rt.1 ++ ":default", samplesLookup language, rt.2)

/-! ## Sample generation -/

/-- `fileExtensionForRuntime`: `nodejs ↦ js`, `python ↦ py`, and every other
runtime maps to itself. -/
def fileExtensionForRuntime (runtime : String) : String :=
  if runtime = "nodejs" then "js"
  else if runtime = "python" then "py"
  else runtime

/-- How `generateSample` ends: success (with the updated spec and the action
directory), the coded "could not find sample package" internal error, or a
Go nil-pointer-dereference panic.  In the source, `sampPkg` is a
`*do.ServerlessPackage` that remains `nil` when no package is named
`sample`; the guard `sampPkg.Name != "sample"` then dereferences `nil` and
panics before the internal-error return can execute. -/
inductive GenResult
  | ok (config : ServerlessSpec) (actionDir : String)
  | internalError
  | nilPanic
deriving DecidableEq, Repr

/-- The pointer mutation `sampPkg.Functions = [...]`: replace the function
list of the first package named `sample`. -/
def setSampleFunctions : List ServerlessPackage → List ServerlessFunction →
    List ServerlessPackage
  | [], _ => []
  | p :: ps, fns =>
    if p.Name = "sample" then { p with Functions := fns } :: ps
    else p :: setSampleFunctions ps fns

/-- `generateSample`: create the `hello` action directory (plus a `src`
subdirectory for typescript), write the sample source file named with the
runtime-derived suffix, then register the `hello` function in the `sample`
package of the config. -/
def generateSample (kind : String) (config : ServerlessSpec) (sample : String)
    (samplePackage : String) (ts : Bool) : List FsEffect × GenResult :=
  let runtime := (splitStr kind ':').headD ""
  let suffix := if ts then "ts" else fileExtensionForRuntime runtime
  let actionDir := joinPath samplePackage "hello"
  let mkEffs : List FsEffect :=
    if ts then [.mkdirAll actionDir, .mkdir (joinPath actionDir "src")]
    else [.mkdirAll actionDir]
  let file :=
    if ts then joinPath (joinPath actionDir "src") ("hello." ++ suffix)
    else joinPath actionDir ("hello." ++ suffix)
  let effs := mkEffs ++ [.write file sample]
  match config.Packages.find? (fun p => p.Name = "sample") with
  | none => (effs, .nilPanic)
  | some pkg =>
    if pkg.Name ≠ "sample" then (effs, .internalError)
    else
      let f : ServerlessFunction :=
        { Name := "hello", Runtime := kind, Web := true, WebSecure := false }
      (effs, .ok { Packages := setSampleFunctions config.Packages [f] }
        actionDir)

/-! ## Static scaffolding texts

These constants live in the repository but outside `src/`; every claim
is indifferent to their exact content, so they are modelled from the spec as
fixed placeholder texts. -/

/-- Modelled from the spec: `gitignores`, the base ignore entries written to
the project-local `.gitignore` (no claim depends on the content). -/
def gitignores : String := "<base ignore entries>\n"

/-- Modelled from the spec: `ignoreForTypescript`, the extra ignore entries
appended for the typescript build artifacts (no claim depends on the content). -/
def ignoreForTypescript : String := "<typescript ignore entries>\n"

/-- Modelled from the spec: `packageJSONForTypescript`, the static
`package.json` written into the action directory of the typescript sample. -/
def packageJSONForTypescript : String := "<typescript package.json>\n"

/-- Modelled from the spec: `tsconfigJSON`, the static `tsconfig.json`
written into the action directory of the typescript sample. -/
def tsconfigJSON : String := "<typescript tsconfig.json>\n"

/-- Modelled from the spec: `yaml.Marshal` of the ProjectSpec, serialized
once to the config file of the project; the exact YAML text is external to this
subsystem; no claim depends on it. -/
def yamlMarshal (s : ServerlessSpec) : String :=
  "packages:\n" ++ String.join (s.Packages.map fun p =>
    "  - name: " ++ p.Name ++ "\n" ++
    String.join (p.Functions.map fun f =>
      "    - function: " ++ f.Name ++ " runtime: " ++ f.Runtime ++
      " web: " ++ (if f.Web then "true" else "false") ++
      " webSecure: " ++ (if f.WebSecure then "true" else "false") ++ "\n"))

/-! ## Shared command plumbing -/

/-- Modelled from the spec: `ensureOneArg` (not under `src/`) fails with a
missing-arguments signal unless exactly one positional argument is present. -/
def ensureOneArg (args : List String) : Except String Unit :=
  if args.length = 1 then .ok () else .error "missing arguments"

/-- The success message printed by `RunServerlessExtraCreate`. -/
def initSuccessMessage (project : String) : String :=
  "A local functions project directory \x27" ++ project ++
  "\x27 was created for you.\nYou may deploy it by running the command shown on the next line:\n  doctl serverless deploy " ++
  project ++ "\n"

/-- How `RunServerlessExtraCreate` ends: success (carrying, for
specification purposes, the final in-memory spec that was serialized to
`project.yml`, and the printed message), an error return, or a Go runtime
panic. -/
inductive InitResult
  | ok (config : ServerlessSpec) (message : String)
  | err (e : String)
  | panic (m : String)
deriving DecidableEq, Repr

/-- `RunServerlessExtraCreate` (`doctl serverless init`): resolve the
language, prepare the project area, create `packages/sample`, generate the
sample, write `project.yml` and `.gitignore`, and write the typescript
tooling files when applicable.  Disk mutations are returned in execution
order. -/
def runServerlessExtraCreate (args : List String) (language : String)
    (overwrite : Bool) (stat : StatResult) (remote : RemoteHost) :
    List FsEffect × InitResult :=
  match ensureOneArg args with
  | .error e => ([], .err e)
  | .ok _ =>
  let project := args.headD ""
  match languageToKindAndSample remote language with
  | .error e => ([], .err e)
  | .ok (kind, sample, ts) =>
  let configFile := joinPath project "project.yml"
  let gitignoreFile := joinPath project ".gitignore"
  let samplePackage := joinPath (joinPath project "packages") "sample"
  let prep := prepareProjectArea project overwrite stat
  match prep with
  | .failed e => ([], .err e)
  | _ =>
  let eff0 := prepareEffects project prep ++ [FsEffect.mkdirAll samplePackage]
  let genEffs := (generateSample kind configTemplate sample samplePackage ts).1
  match (generateSample kind configTemplate sample samplePackage ts).2 with
  | .nilPanic =>
      (eff0 ++ genEffs,
       .panic "runtime error: invalid memory address or nil pointer dereference")
  | .internalError =>
      (eff0 ++ genEffs, .err "could not find sample package in config (internal error)")
  | .ok config actionDir =>
  let effs1 := eff0 ++ genEffs ++ [FsEffect.write configFile (yamlMarshal config)]
  let ignores := gitignores ++ (if ts then ignoreForTypescript else "")
  let effs2 := effs1 ++ [FsEffect.write gitignoreFile ignores]
  let effs3 :=
    if ts then effs2 ++
      [FsEffect.write (joinPath actionDir "package.json") packageJSONForTypescript,
       FsEffect.write (joinPath actionDir "tsconfig.json") tsconfigJSON,
       FsEffect.write (joinPath actionDir ".include") "lib\n"]
    else effs2
  (effs3, .ok config (initSuccessMessage project))

/-! ## Deploy, get-metadata and watch drivers -/

/-- `do.ServerlessOutput` restricted to the field these commands read. -/
structure ServerlessOutput where
  Captured : List String
deriving DecidableEq, Repr

/-- What a deploy/get-metadata invocation showed the user: nothing, a
normal display via `PrintServerlessTextOutput`, or a raw best-effort
`Fprintln` of joined text. -/
inductive DeployObs
  | nothing
  | displayed (out : ServerlessOutput)
  | printedRaw (text : String)
deriving DecidableEq, Repr

/-- The observable outcome of a deploy/get-metadata invocation: the final
flag state, what was shown, and the returned error (`none` = nil). -/
structure DeployRet where
  opts : OptState
  obs : DeployObs
  result : Option String
deriving DecidableEq, Repr

/-- `RunServerlessExtraDeploy`: normalize include/exclude, require one
argument, invoke the backend (`RunServerlessExec "deploy"`), and apply the
error/transcript policy.  `backend` yields the captured transcript and the
optional backend error; `displayErr` is the result of
`PrintServerlessTextOutput`; `printErr` is the discarded result of the
best-effort `Fprintln`. -/
def runServerlessExtraDeploy (args : List String) (opts : OptState)
    (backend : OptState → ServerlessOutput × Option String)
    (displayErr : Option String) (printErr : Option String) : DeployRet :=
  let opts := adjustIncludeAndExclude opts
  match ensureOneArg args with
  | .error e => ⟨opts, .nothing, some e⟩
  | .ok _ =>
    let (output, err) := backend opts
    if err.isSome ∧ output.Captured = [] then ⟨opts, .nothing, err⟩
    else
      let rewritten : ServerlessOutput := ⟨output.Captured.map deployLineRewrite⟩
      match err with
      | none => ⟨opts, .displayed rewritten, displayErr⟩
      | some e => ⟨opts, .printedRaw (joinStr rewritten.Captured (Char.ofNat 10)), some e⟩

/-- `RunServerlessExtraGetMetadata`: normalize include/exclude, require one
argument, then either call the local project reader (hidden flag) or the
backend, and display the output on success. -/
def runServerlessExtraGetMetadata (args : List String) (opts : OptState)
    (projectReader : Bool)
    (execBackend : OptState → ServerlessOutput × Option String)
    (readProject : List String → ServerlessOutput × Option String)
    (displayErr : Option String) : DeployRet :=
  let opts := adjustIncludeAndExclude opts
  match ensureOneArg args with
  | .error e => ⟨opts, .nothing, some e⟩
  | .ok _ =>
    let (output, err) :=
      if projectReader then readProject args else execBackend opts
    match err with
    | some e => ⟨opts, .nothing, some e⟩
    | none => ⟨opts, .displayed output, displayErr⟩

/-- `RunServerlessExtraWatch`: normalize include/exclude, require one
argument, then hand off to the streaming backend
(`RunServerlessExecStreaming`), whose result is returned directly. -/
def runServerlessExtraWatch (args : List String) (opts : OptState)
    (streamBackend : OptState → Option String) : OptState × Option String :=
  let opts := adjustIncludeAndExclude opts
  match ensureOneArg args with
  | .error e => (opts, some e)
  | .ok _ => (opts, streamBackend opts)

/-! ## Shared helper lemmas and sample environments -/

/-- Evaluating `generateSample` on the spec built by `configTemplate`: the
lookup always finds the `sample` package, so the result is success with the
single registered `hello` function. -/
theorem generateSample_configTemplate_snd (kind sample sp : String) (ts : Bool) :
    (generateSample kind configTemplate sample sp ts).2 =
      .ok ⟨[⟨"sample", [⟨"hello", kind, true, false⟩]⟩]⟩ (joinPath sp "hello") := rfl

/-- A reachable remote host used to instantiate witnesses. -/
def sampleRemoteHost : RemoteHost :=
  ⟨.ok (), .ok "api.example.com", fun _ => .ok ["nodejs", "python", "go", "php"]⟩

/-- An unreachable remote host (status check fails) used in witnesses. -/
def downRemoteHost : RemoteHost :=
  ⟨.error "serverless support is not installed", .error "no credentials",
   fun _ => .error "host unreachable"⟩

/-! ## Claim theorems -/

/-- C1: `prepareProjectArea` proceeds when the target path does not exist;
when the path exists (in particular when it is non-empty) and overwrite is
false it fails with the quoted-overwrite "already exists" error naming
the path and performs no disk change; when the path exists and overwrite is
true it recursively removes the directory and proceeds. -/
theorem claim_C1_prepareProjectArea (project : String) (overwrite : Bool)
    (stat : StatResult) :
    (stat = .notExist → prepareProjectArea project overwrite stat = .proceed ∧
      prepareEffects project (prepareProjectArea project overwrite stat) = []) ∧
    (stat = .found → overwrite = false →
      prepareProjectArea project overwrite stat = .failed (alreadyExistsMsg project) ∧
      prepareEffects project (prepareProjectArea project overwrite stat) = []) ∧
    (stat = .found → overwrite = true →
      prepareProjectArea project overwrite stat = .removedThenProceed ∧
      prepareEffects project (prepareProjectArea project overwrite stat) =
        [.removeAll project]) := by
  refine ⟨fun h => ?_, fun h h2 => ?_, fun h h2 => ?_⟩ <;>
    subst h <;> subst_eqs <;> simp [prepareProjectArea, prepareEffects]

/-- C1 witness at concrete inputs. -/
theorem claim_C1_witness :
    prepareProjectArea "proj" false .found = .failed (alreadyExistsMsg "proj") ∧
    prepareProjectArea "proj" true .found = .removedThenProceed ∧
    prepareProjectArea "proj" false .notExist = .proceed :=
  ⟨((claim_C1_prepareProjectArea "proj" false .found).2.1 rfl rfl).1,
   ((claim_C1_prepareProjectArea "proj" true .found).2.2 rfl rfl).1,
   ((claim_C1_prepareProjectArea "proj" false .notExist).1 rfl).1⟩

/-- C3: `adjustIncludeAndExclude` sets an unset/empty exclude flag to
exactly `web`; a non-empty exclude flag has every token equal to `web`
rewritten to `web/` (order and other tokens preserved, expressed by the
split/map/join form) and then `web` appended as one more comma-separated
entry; a non-empty include flag gets only the token rewrite; an empty
include flag is untouched. -/
theorem claim_C3_adjustIncludeAndExclude (s : OptState) :
    (s.excludeOpt = "" → (adjustIncludeAndExclude s).excludeOpt = keywordWeb) ∧
    (s.excludeOpt ≠ "" → (adjustIncludeAndExclude s).excludeOpt =
      joinStr ((splitStr s.excludeOpt ',').map
        fun t => if t = "web" then "web/" else t) ',' ++ "," ++ keywordWeb) ∧
    (s.includeOpt ≠ "" → (adjustIncludeAndExclude s).includeOpt =
      joinStr ((splitStr s.includeOpt ',').map
        fun t => if t = "web" then "web/" else t) ',') ∧
    (s.includeOpt = "" → (adjustIncludeAndExclude s).includeOpt = s.includeOpt) := by
  refine ⟨fun h => ?_, fun h => ?_, fun h => ?_, fun h => ?_⟩ <;>
    simp [adjustIncludeAndExclude, qualifyWebWithSlash, h, keywordWeb] <;>
    try split <;> rfl

/-- C3 witness: the concrete example from the spec and the unset case. -/
theorem claim_C3_witness :
    (adjustIncludeAndExclude ⟨"", "foo,web"⟩).excludeOpt = "foo,web/,web" ∧
    (adjustIncludeAndExclude ⟨"", ""⟩).excludeOpt = "web" ∧
    (adjustIncludeAndExclude ⟨"web,a", "x"⟩).includeOpt = "web/,a" := by
  refine ⟨?_, ?_, ?_⟩
  · rw [(claim_C3_adjustIncludeAndExclude ⟨"", "foo,web"⟩).2.1 (by decide)]; decide
  · rw [(claim_C3_adjustIncludeAndExclude ⟨"", ""⟩).1 (by decide)]; rfl
  · rw [(claim_C3_adjustIncludeAndExclude ⟨"web,a", "x"⟩).2.2.1 (by decide)]; decide

/-- C4 counterexample: the claim says every line containing
`Deployed actions` is replaced wholesale by the branded banner, but a line
that also contains `Deploying project` takes the first branch instead and
is not replaced by the banner. -/
theorem claim_C4_counterexample :
    strContains "Deploying project Deployed actions" "Deployed actions" = true ∧
    deployLineRewrite "Deploying project Deployed actions" ≠ deployedFunctionsBanner ∧
    deployLineRewrite "Deploying project Deployed actions" =
      "Deployed Deployed actions" := by
  refine ⟨by decide, by decide, by decide⟩

/-- C4 (amended): the rewrite of a captured line depends only on that line;
a line containing `Deploying project` has the first occurrence of that
marker replaced by `Deployed` (this branch takes precedence); a line not
containing `Deploying project` but containing `Deployed actions` is
replaced wholesale by the fixed branded banner; all other lines are
unchanged. -/
theorem claim_C4_deployLineRewrite (value : String) :
    (strContains value "Deploying project" = true →
      deployLineRewrite value = strReplaceFirst value "Deploying project" "Deployed") ∧
    (strContains value "Deploying project" = false →
      strContains value "Deployed actions" = true →
      deployLineRewrite value = deployedFunctionsBanner) ∧
    (strContains value "Deploying project" = false →
      strContains value "Deployed actions" = false →
      deployLineRewrite value = value) := by
  refine ⟨fun h => ?_, fun h h2 => ?_, fun h h2 => ?_⟩
  · simp [deployLineRewrite, h]
  · simp [deployLineRewrite, h, h2]
  · simp [deployLineRewrite, h, h2]

/-- C4 witness at concrete lines. -/
theorem claim_C4_witness :
    deployLineRewrite "Deploying project /tmp/x" = "Deployed /tmp/x" ∧
    deployLineRewrite "xx Deployed actions yy" = deployedFunctionsBanner ∧
    deployLineRewrite "plain line" = "plain line" := by
  refine ⟨?_, ?_, ?_⟩
  · rw [(claim_C4_deployLineRewrite "Deploying project /tmp/x").1 (by decide)]; decide
  · exact (claim_C4_deployLineRewrite "xx Deployed actions yy").2.1 (by decide) (by decide)
  · exact (claim_C4_deployLineRewrite "plain line").2.2 (by decide) (by decide)

/-- C5: `validateRuntime` accepts `nodejs` for every remote host (no remote
interaction can influence it); any failure of the status check, credential
read, or host-info fetch yields acceptance; a rejection can only arise when
every remote step succeeded and the runtime is absent from the
runtime set of the host (and the runtime is not `nodejs`). -/
theorem claim_C5_validateRuntime (remote : RemoteHost) (runtime : String) :
    validateRuntime remote "nodejs" = true ∧
    (∀ e, remote.status = .error e → validateRuntime remote runtime = true) ∧
    (∀ e, remote.creds = .error e → validateRuntime remote runtime = true) ∧
    (∀ apiHost e, remote.creds = .ok apiHost → remote.hostInfo apiHost = .error e →
      validateRuntime remote runtime = true) ∧
    (validateRuntime remote runtime = false →
      runtime ≠ "nodejs" ∧ remote.status = .ok () ∧
      ∃ apiHost runtimes, remote.creds = .ok apiHost ∧
        remote.hostInfo apiHost = .ok runtimes ∧
        runtimes.contains runtime = false) := by
  refine ⟨rfl, fun e h => ?_, fun e h => ?_, fun apiHost e h h2 => ?_, fun h => ?_⟩
  · unfold validateRuntime
    split
    · rfl
    · simp [h]
  · unfold validateRuntime
    split
    · rfl
    · cases hs : remote.status with
      | error e2 => simp
      | ok u => simp [h]
  · unfold validateRuntime
    split
    · rfl
    · cases hs : remote.status with
      | error e2 => simp
      | ok u => simp [h, h2]
  · unfold validateRuntime at h
    split at h
    · simp at h
    · rename_i hrt
      refine ⟨hrt, ?_⟩
      cases hs : remote.status with
      | error e2 => simp [hs] at h
      | ok u =>
        cases u
        simp only [hs] at h
        cases hc : remote.creds with
        | error e2 => simp [hc] at h
        | ok apiHost =>
          simp only [hc] at h
          cases hh : remote.hostInfo apiHost with
          | error e2 => simp [hh] at h
          | ok runtimes =>
            simp only [hh] at h
            exact ⟨rfl, apiHost, runtimes, rfl, hh, h⟩

/-- C5 witness: permissive acceptance on an unreachable host, builtin
acceptance of `nodejs`, and authoritative rejection on a reachable host. -/
theorem claim_C5_witness :
    validateRuntime downRemoteHost "rust" = true ∧
    validateRuntime sampleRemoteHost "nodejs" = true ∧
    (validateRuntime sampleRemoteHost "rust" = false →
      "rust" ≠ "nodejs" ∧ sampleRemoteHost.status = .ok () ∧
      ∃ apiHost runtimes, sampleRemoteHost.creds = .ok apiHost ∧
        sampleRemoteHost.hostInfo apiHost = .ok runtimes ∧
        runtimes.contains "rust" = false) :=
  ⟨(claim_C5_validateRuntime downRemoteHost "rust").2.1
      "serverless support is not installed" rfl,
   (claim_C5_validateRuntime sampleRemoteHost "whatever").1,
   (claim_C5_validateRuntime sampleRemoteHost "rust").2.2.2.2⟩

/-- C2: deploy error policy.  With one positional argument, for every
backend result: an error with an empty transcript is returned unchanged
with nothing printed; an error with a non-empty transcript prints the full
rewritten transcript joined with newlines (whatever the discarded result
`printErr` of that print is) and returns the original error; no error
displays the rewritten transcript as normal output. -/
theorem claim_C2_deploy_error_policy (d : String) (opts : OptState)
    (backend : OptState → ServerlessOutput × Option String)
    (displayErr printErr : Option String) :
    (∀ out e, backend (adjustIncludeAndExclude opts) = (out, some e) →
      out.Captured = [] →
      runServerlessExtraDeploy [d] opts backend displayErr printErr =
        ⟨adjustIncludeAndExclude opts, .nothing, some e⟩) ∧
    (∀ out e, backend (adjustIncludeAndExclude opts) = (out, some e) →
      out.Captured ≠ [] →
      runServerlessExtraDeploy [d] opts backend displayErr printErr =
        ⟨adjustIncludeAndExclude opts,
         .printedRaw (joinStr (out.Captured.map deployLineRewrite) (Char.ofNat 10)),
         some e⟩) ∧
    (∀ out, backend (adjustIncludeAndExclude opts) = (out, none) →
      runServerlessExtraDeploy [d] opts backend displayErr printErr =
        ⟨adjustIncludeAndExclude opts,
         .displayed ⟨out.Captured.map deployLineRewrite⟩, displayErr⟩) := by
  refine ⟨fun out e hb hc => ?_, fun out e hb hc => ?_, fun out hb => ?_⟩
  · simp [runServerlessExtraDeploy, ensureOneArg, hb, hc]
  · simp [runServerlessExtraDeploy, ensureOneArg, hb, hc]
  · simp [runServerlessExtraDeploy, ensureOneArg, hb]

/-- C2 witness at concrete backend results. -/
theorem claim_C2_witness :
    runServerlessExtraDeploy ["dir"] ⟨"", ""⟩
        (fun _ => (⟨[]⟩, some "backend boom")) none none =
      ⟨⟨"", "web"⟩, .nothing, some "backend boom"⟩ ∧
    runServerlessExtraDeploy ["dir"] ⟨"", ""⟩
        (fun _ => (⟨["Deploying project x", "ok"]⟩, some "backend boom")) none (some "print failed") =
      ⟨⟨"", "web"⟩, .printedRaw "Deployed x\nok", some "backend boom"⟩ ∧
    runServerlessExtraDeploy ["dir"] ⟨"", ""⟩
        (fun _ => (⟨["Deployed actions zz"]⟩, none)) none none =
      ⟨⟨"", "web"⟩, .displayed ⟨[deployedFunctionsBanner]⟩, none⟩ := by
  refine ⟨?_, ?_, ?_⟩
  · rw [(claim_C2_deploy_error_policy "dir" ⟨"", ""⟩
      (fun _ => (⟨[]⟩, some "backend boom")) none none).1
      ⟨[]⟩ "backend boom" rfl rfl]
    decide
  · rw [(claim_C2_deploy_error_policy "dir" ⟨"", ""⟩
      (fun _ => (⟨["Deploying project x", "ok"]⟩, some "backend boom")) none
      (some "print failed")).2.1
      ⟨["Deploying project x", "ok"]⟩ "backend boom" rfl (by decide)]
    decide
  · rw [(claim_C2_deploy_error_policy "dir" ⟨"", ""⟩
      (fun _ => (⟨["Deployed actions zz"]⟩, none)) none none).2.2
      ⟨["Deployed actions zz"]⟩ rfl]
    decide

/-- C6: a language token whose lowercasing matches no alias in the
language-keywords table makes `init` fail with the "is not a supported
language" error naming the lowercased token, with no filesystem effect
recorded. -/
theorem claim_C6_unsupported_language (project language : String)
    (overwrite : Bool) (stat : StatResult) (remote : RemoteHost)
    (h : languageKeywords.find? (fun p => p.2.contains (strToLower language)) = none) :
    runServerlessExtraCreate [project] language overwrite stat remote =
      ([], .err (unsupportedLanguageMsg (strToLower language))) := by
  unfold runServerlessExtraCreate languageToKindAndSample isValidLanguage
  simp only [ensureOneArg]
  rw [h]
  simp

/-- C6 witness: `Cobol` matches no alias. -/
theorem claim_C6_witness :
    runServerlessExtraCreate ["proj"] "Cobol" false .notExist sampleRemoteHost =
      ([], .err "cobol is not a supported language") := by
  rw [claim_C6_unsupported_language "proj" "Cobol" false .notExist sampleRemoteHost
    (by decide)]
  decide

/-- C7: the defensive branch of `generateSample` is misimplemented.  On a
spec with no package named `sample` the Go code leaves `sampPkg` nil and
panics dereferencing `sampPkg.Name` (modelled by `GenResult.nilPanic`)
instead of returning the "could not find sample package" internal error;
on any spec built by `configTemplate` the lookup always succeeds, so both
failure branches are unreachable and the `hello` function is registered. -/
theorem claim_C7_generateSample_defensive_branch :
    (generateSample "nodejs:default" ⟨[]⟩ "<javascript sample source>"
        "proj/packages/sample" false).2 = .nilPanic ∧
    (generateSample "nodejs:default" ⟨[]⟩ "<javascript sample source>"
        "proj/packages/sample" false).2 ≠ .internalError ∧
    ∀ kind sample samplePackage : String, ∀ ts : Bool,
      (generateSample kind configTemplate sample samplePackage ts).2 =
        .ok ⟨[⟨"sample", [⟨"hello", kind, true, false⟩]⟩]⟩
          (joinPath samplePackage "hello") :=
  ⟨rfl, by decide, fun kind sample samplePackage ts => rfl⟩

/-- C8: every spec produced by a successful `init` holds exactly one
package, named `sample`, holding exactly one function, named `hello`, whose
runtime is the kind string resolved by `languageToKindAndSample`, with
`web = true` and `webSecure = false`. -/
theorem claim_C8_scaffolded_spec_invariant (args : List String)
    (language : String) (overwrite : Bool) (stat : StatResult)
    (remote : RemoteHost) (effs : List FsEffect) (config : ServerlessSpec)
    (msg : String)
    (h : runServerlessExtraCreate args language overwrite stat remote =
      (effs, .ok config msg)) :
    ∃ kind sample ts,
      languageToKindAndSample remote language = .ok (kind, sample, ts) ∧
      config = ⟨[⟨"sample", [⟨"hello", kind, true, false⟩]⟩]⟩ := by
  unfold runServerlessExtraCreate at h
  cases hE : ensureOneArg args with
  | error e => rw [hE] at h; simp at h
  | ok u =>
    rw [hE] at h
    simp only [] at h
    cases hL : languageToKindAndSample remote language with
    | error e => rw [hL] at h; simp at h
    | ok kst =>
      obtain ⟨kind, sample, ts⟩ := kst
      rw [hL] at h
      simp only [] at h
      refine ⟨kind, sample, ts, rfl, ?_⟩
      cases hP : prepareProjectArea (args.headD "") overwrite stat with
      | failed e => rw [hP] at h; simp at h
      | proceed =>
        rw [hP] at h
        rw [generateSample_configTemplate_snd] at h
        simp only [] at h
        simp at h
        exact h.2.1.symm
      | removedThenProceed =>
        rw [hP] at h
        rw [generateSample_configTemplate_snd] at h
        simp only [] at h
        simp at h
        exact h.2.1.symm

/-- C8 witness: a concrete successful `init`. -/
theorem claim_C8_witness :
    ∃ kind sample ts,
      languageToKindAndSample sampleRemoteHost "javascript" = .ok (kind, sample, ts) ∧
      (⟨[⟨"sample", [⟨"hello", "nodejs:default", true, false⟩]⟩]⟩ : ServerlessSpec) =
        ⟨[⟨"sample", [⟨"hello", kind, true, false⟩]⟩]⟩ :=
  claim_C8_scaffolded_spec_invariant ["proj"] "javascript" false .notExist
    sampleRemoteHost
    (runServerlessExtraCreate ["proj"] "javascript" false .notExist sampleRemoteHost).1
    ⟨[⟨"sample", [⟨"hello", "nodejs:default", true, false⟩]⟩]⟩
    (initSuccessMessage "proj") rfl

/-- C9: sample-file naming and typescript scaffolding.  The file extension
is `js` for runtime `nodejs`, `py` for `python`, and the runtime name
itself otherwise; `init <project> -l typescript` uses extension `ts`,
nests the sample under an extra `src` directory, and additionally writes
`package.json`, `tsconfig.json`, a `.include` file containing exactly
`"lib\n"`, and a `.gitignore` holding the base ignores followed by the
typescript ignores. -/
theorem claim_C9_typescript_scaffold (project : String) (overwrite : Bool)
    (stat : StatResult) (remote : RemoteHost)
    (h : stat = .notExist ∨ (stat = .found ∧ overwrite = true)) :
    fileExtensionForRuntime "nodejs" = "js" ∧
    fileExtensionForRuntime "python" = "py" ∧
    (∀ runtime, runtime ≠ "nodejs" → runtime ≠ "python" →
      fileExtensionForRuntime runtime = runtime) ∧
    runServerlessExtraCreate [project] "typescript" overwrite stat remote =
      (prepareEffects project (prepareProjectArea project overwrite stat) ++
        [FsEffect.mkdirAll (joinPath (joinPath project "packages") "sample"),
         FsEffect.mkdirAll
           (joinPath (joinPath (joinPath project "packages") "sample") "hello"),
         FsEffect.mkdir
           (joinPath (joinPath (joinPath (joinPath project "packages") "sample")
             "hello") "src"),
         FsEffect.write
           (joinPath (joinPath (joinPath (joinPath (joinPath project "packages")
             "sample") "hello") "src") "hello.ts")
           (samplesLookup "typescript"),
         FsEffect.write (joinPath project "project.yml")
           (yamlMarshal ⟨[⟨"sample", [⟨"hello", "nodejs:default", true, false⟩]⟩]⟩),
         FsEffect.write (joinPath project ".gitignore")
           (gitignores ++ ignoreForTypescript),
         FsEffect.write
           (joinPath (joinPath (joinPath (joinPath project "packages") "sample")
             "hello") "package.json") packageJSONForTypescript,
         FsEffect.write
           (joinPath (joinPath (joinPath (joinPath project "packages") "sample")
             "hello") "tsconfig.json") tsconfigJSON,
         FsEffect.write
           (joinPath (joinPath (joinPath (joinPath project "packages") "sample")
             "hello") ".include") "lib\n"],
       .ok ⟨[⟨"sample", [⟨"hello", "nodejs:default", true, false⟩]⟩]⟩
         (initSuccessMessage project)) := by
  refine ⟨rfl, rfl, fun runtime h1 h2 => ?_, ?_⟩
  · simp [fileExtensionForRuntime, h1, h2]
  · rcases h with h | ⟨h1, h2⟩
    · subst h; rfl
    · subst h1; subst h2; rfl

/-- C9 witness at a concrete project path. -/
theorem claim_C9_witness :
    runServerlessExtraCreate ["proj"] "typescript" false .notExist sampleRemoteHost =
      ([.mkdirAll "proj/packages/sample",
        .mkdirAll "proj/packages/sample/hello",
        .mkdir "proj/packages/sample/hello/src",
        .write "proj/packages/sample/hello/src/hello.ts" "<typescript sample source>",
        .write "proj/project.yml"
          (yamlMarshal ⟨[⟨"sample", [⟨"hello", "nodejs:default", true, false⟩]⟩]⟩),
        .write "proj/.gitignore" (gitignores ++ ignoreForTypescript),
        .write "proj/packages/sample/hello/package.json" packageJSONForTypescript,
        .write "proj/packages/sample/hello/tsconfig.json" tsconfigJSON,
        .write "proj/packages/sample/hello/.include" "lib\n"],
       .ok ⟨[⟨"sample", [⟨"hello", "nodejs:default", true, false⟩]⟩]⟩
         (initSuccessMessage "proj")) := by
  rw [(claim_C9_typescript_scaffold "proj" false .notExist sampleRemoteHost
    (Or.inl rfl)).2.2.2]
  decide

/-- C10: in the deploy, get-metadata and watch commands the include/exclude
normalization runs before the positional-argument-count check, so an
invocation failing with the missing-arguments error has already mutated the
exclude flag — to exactly `web` when it was unset, and to the rewritten
list with `,web` appended otherwise. -/
theorem claim_C10_normalization_precedes_arg_check (args : List String)
    (opts : OptState)
    (backend : OptState → ServerlessOutput × Option String)
    (displayErr printErr displayErr2 : Option String) (projectReader : Bool)
    (execB : OptState → ServerlessOutput × Option String)
    (readP : List String → ServerlessOutput × Option String)
    (streamB : OptState → Option String)
    (h : args.length ≠ 1) :
    runServerlessExtraDeploy args opts backend displayErr printErr =
      ⟨adjustIncludeAndExclude opts, .nothing, some "missing arguments"⟩ ∧
    runServerlessExtraGetMetadata args opts projectReader execB readP displayErr2 =
      ⟨adjustIncludeAndExclude opts, .nothing, some "missing arguments"⟩ ∧
    runServerlessExtraWatch args opts streamB =
      (adjustIncludeAndExclude opts, some "missing arguments") ∧
    ((adjustIncludeAndExclude opts).excludeOpt = keywordWeb ∨
      (adjustIncludeAndExclude opts).excludeOpt =
        qualifyWebWithSlash opts.excludeOpt ++ "," ++ keywordWeb) := by
  refine ⟨?_, ?_, ?_, ?_⟩
  · simp [runServerlessExtraDeploy, ensureOneArg, h]
  · simp [runServerlessExtraGetMetadata, ensureOneArg, h]
  · simp [runServerlessExtraWatch, ensureOneArg, h]
  · by_cases he : opts.excludeOpt = ""
    · left
      by_cases hi : opts.includeOpt = "" <;>
        simp [adjustIncludeAndExclude, hi, he, keywordWeb]
    · right; unfold adjustIncludeAndExclude
      split <;> simp [he]

/-- C10 witness: zero-argument invocations of all three commands. -/
theorem claim_C10_witness :
    runServerlessExtraDeploy [] ⟨"", ""⟩ (fun _ => (⟨[]⟩, none)) none none =
      ⟨⟨"", "web"⟩, .nothing, some "missing arguments"⟩ ∧
    runServerlessExtraGetMetadata [] ⟨"", "foo,web"⟩ false
        (fun _ => (⟨[]⟩, none)) (fun _ => (⟨[]⟩, none)) none =
      ⟨⟨"", "foo,web/,web"⟩, .nothing, some "missing arguments"⟩ ∧
    runServerlessExtraWatch [] ⟨"", ""⟩ (fun _ => none) =
      (⟨"", "web"⟩, some "missing arguments") := by
  have h1 := claim_C10_normalization_precedes_arg_check [] ⟨"", ""⟩
    (fun _ => (⟨[]⟩, none)) none none none false (fun _ => (⟨[]⟩, none))
    (fun _ => (⟨[]⟩, none)) (fun _ => none) (by decide)
  have h2 := claim_C10_normalization_precedes_arg_check [] ⟨"", "foo,web"⟩
    (fun _ => (⟨[]⟩, none)) none none none false (fun _ => (⟨[]⟩, none))
    (fun _ => (⟨[]⟩, none)) (fun _ => none) (by decide)
  refine ⟨?_, ?_, ?_⟩
  · rw [h1.1]; decide
  · rw [h2.2.1]; decide
  · rw [h1.2.2.1]; decide

end DoctlServerless
